import Mathlib

/-!
Shallow embedding of the MT5Api-Python-Clear repository for checking its
natural-language specification.  Prices and percentages are modelled as
rationals, volumes and integer fields as integers, symbols and paths as
strings.  Python `Optional` values become `Option`, raising code becomes
`Except`, and Python truthiness (where a branch tests a value, not just
its presence) is translated explicitly at each site.
-/

namespace MT5

/-- Timestamps: the adapters either parse a wire string or substitute the
current wall-clock time; the claims never inspect the parsed value, so a
timestamp is kept symbolic. -/
inductive TimeVal where
  | parsed (s : String)
  | currentTime
  deriving DecidableEq, Repr

/-- Whether an `Except` computation succeeded (no exception was raised). -/
def exceptOk {ε α : Type} : Except ε α → Bool
  | .ok _ => true
  | .error _ => false

/-- Python round(x, 4): round to 4 decimal places.  The claims under check
never sit on a rounding tie, so tie behaviour is immaterial here. -/
def round4 (q : ℚ) : ℚ := (round (q * 10000) : ℤ) / 10000

/-- Python `a or b` over two optional header strings: an empty string is
falsy and falls through to the second operand. -/
def pyOr (a b : Option String) : Option String :=
  match a with
  | some s => if s = "" then b else some s
  | none => b

/-- Python str.strip over the character sequence: drop whitespace from
both ends. -/
def pyStrip (s : String) : String :=
  String.mk (((s.data.dropWhile Char.isWhitespace).reverse.dropWhile
    Char.isWhitespace).reverse)

/-- Python str.upper over the character sequence. -/
def pyUpper (s : String) : String := String.mk (s.data.map Char.toUpper)

namespace Client

/-- Result of one client HTTP call: the parsed body, the re-raised final
transport error, or the defensive generic failure after the loop. -/
inductive HttpResult (ε α : Type) where
  | ok (v : α)
  | raised (e : ε)
  | genericFailure
  deriving Repr

/-- The retry loop of HttpClient.post/get (client infrastructure
adapters): `outcomes i` is what attempt number i would produce (a parsed
response or a timeout/transport error).  Returns the loop result together
with how many attempts were made and how many retry_delay sleeps were
performed. -/
def postGo {ε α : Type} (outcomes : ℕ → Except ε α)
    (maxRetries attempt attempts sleeps : ℕ) : HttpResult ε α × ℕ × ℕ :=
  if _h : attempt < maxRetries then
    match outcomes attempt with
    | .ok v => (.ok v, attempts + 1, sleeps)
    | .error e =>
        if attempt = maxRetries - 1 then (.raised e, attempts + 1, sleeps)
        else postGo outcomes maxRetries (attempt + 1) (attempts + 1)
          (sleeps + 1)
  else (.genericFailure, attempts, sleeps)
termination_by maxRetries - attempt
decreasing_by omega

/-- HttpClient.post (the get helper is line for line the same loop):
run the retry loop from attempt 0. -/
def HttpClient.post {ε α : Type} (outcomes : ℕ → Except ε α)
    (maxRetries : ℕ) : HttpResult ε α × ℕ × ℕ :=
  postGo outcomes maxRetries 0 0 0

/-- Client Ticker entity (mt5_client/domain/entities).  Field `open` of the
source is `open_price` here because `open` is a Lean keyword. -/
structure Ticker where
  symbol : String
  time : TimeVal
  open_price : ℚ
  high : ℚ
  low : ℚ
  close : ℚ
  volume : ℤ
  deriving DecidableEq, Repr

/-- Client Ticker construction with the `__post_init__` checks, in source
order; the first failing check raises. -/
def Ticker.make (symbol : String) (time : TimeVal)
    (open_price high low close : ℚ) (volume : ℤ) : Except String Ticker :=
  if symbol = "" then .error "Symbol cannot be empty"
  else if high < low then .error "High must be >= Low"
  else if ¬(low ≤ open_price ∧ open_price ≤ high) then
    .error "Open must be between Low and High"
  else if ¬(low ≤ close ∧ close ≤ high) then
    .error "Close must be between Low and High"
  else if volume < 0 then .error "Volume cannot be negative"
  else .ok ⟨symbol, time, open_price, high, low, close, volume⟩

/-- Client Symbol entity (only the data; its own validation concerns
name/digits/point and plays no role in the claims below). -/
structure Symbol where
  name : String
  description : String
  digits : ℤ
  point : ℚ
  currency_base : String
  currency_profit : String
  currency_margin : Option String := none
  volume_min : Option ℚ := none
  volume_max : Option ℚ := none
  trade_mode : Option ℤ := none
  deriving DecidableEq, Repr

/-- Client SymbolPercentChange entity. -/
structure SymbolPercentChange where
  symbol : String
  pct_change : ℚ
  error : Option String := none
  deriving DecidableEq, Repr

/-- is_valid: the variation carries no error. -/
def SymbolPercentChange.is_valid (p : SymbolPercentChange) : Bool :=
  p.error.isNone

/-- is_positive: valid and strictly positive change. -/
def SymbolPercentChange.is_positive (p : SymbolPercentChange) : Bool :=
  p.is_valid && decide (0 < p.pct_change)

/-- is_negative: valid and strictly negative change. -/
def SymbolPercentChange.is_negative (p : SymbolPercentChange) : Bool :=
  p.is_valid && decide (p.pct_change < 0)

/-- trend_strength classification of the absolute change. -/
def SymbolPercentChange.trend_strength (p : SymbolPercentChange) : String :=
  if !p.is_valid then "INVALID"
  else if 2 ≤ |p.pct_change| then "STRONG"
  else if 1 ≤ |p.pct_change| then "MODERATE"
  else if 1/2 ≤ |p.pct_change| then "WEAK"
  else "MINIMAL"

/-- Client MarketData aggregate. -/
structure MarketData where
  symbol : Symbol
  latest_ticker : Option Ticker := none
  tickers : Option (List Ticker) := none
  percent_change : Option SymbolPercentChange := none
  deriving DecidableEq, Repr

/-- MarketData.current_price: the latest ticker close when present (a
present dataclass is always truthy), else the close of the last element of
tickers when that list is present and non-empty, else absent. -/
def MarketData.current_price (md : MarketData) : Option ℚ :=
  match md.latest_ticker with
  | some t => some t.close
  | none =>
    match md.tickers with
    | some ts =>
        match ts.getLast? with
        | some t => some t.close
        | none => none
    | none => none

/-- The current_price derivation in the words of claim C5:
latest_ticker.close when latest_ticker is present, else the close of the
last element of tickers when tickers is non-empty, else absent. -/
def MarketData.spec_current_price (md : MarketData) : Option ℚ :=
  match md.latest_ticker with
  | some t => some t.close
  | none =>
    match md.tickers with
    | some ts => ts.getLast?.map (fun t => t.close)
    | none => none

/-- MarketData.calculate_price_range: (min low, max high) over the
tickers, absent when the list is absent or empty. -/
def MarketData.calculate_price_range (md : MarketData) :
    Option (ℚ × ℚ) :=
  match md.tickers with
  | none => none
  | some [] => none
  | some (t :: rest) =>
      some ((rest.map Ticker.low).foldl min t.low,
        (rest.map Ticker.high).foldl max t.high)

/-- Client TickerResponse DTO: entity fields plus precomputed derived
fields. -/
structure TickerResponse where
  symbol : String
  time : TimeVal
  open_price : ℚ
  high : ℚ
  low : ℚ
  close : ℚ
  volume : ℤ
  body : Option ℚ := none
  is_bullish : Option Bool := none
  range_value : Option ℚ := none
  deriving DecidableEq, Repr

/-- TickerResponse.from_entity. -/
def TickerResponse.from_entity (t : Ticker) : TickerResponse :=
  ⟨t.symbol, t.time, t.open_price, t.high, t.low, t.close, t.volume,
    some (t.close - t.open_price), some (decide (t.open_price < t.close)),
    some (t.high - t.low)⟩

/-- Client SymbolPctChangeResponse DTO. -/
structure SymbolPctChangeResponse where
  symbol : String
  pct_change : ℚ
  error : Option String := none
  trend_strength : Option String := none
  deriving DecidableEq, Repr

/-- SymbolPctChangeResponse.from_entity. -/
def SymbolPctChangeResponse.from_entity (p : SymbolPercentChange) :
    SymbolPctChangeResponse :=
  ⟨p.symbol, p.pct_change, p.error, some p.trend_strength⟩

/-- Client MarketDataResponse DTO (the symbol sub-DTO copies the entity
field for field and is kept as the entity). -/
structure MarketDataResponse where
  symbol : Symbol
  latest_ticker : Option TickerResponse := none
  tickers : Option (List TickerResponse) := none
  percent_change : Option SymbolPctChangeResponse := none
  current_price : Option ℚ := none
  price_range : Option (ℚ × ℚ) := none
  deriving DecidableEq, Repr

/-- MarketDataResponse.from_entity: note that the source guards both the
tickers list and current_price with Python truthiness, so an empty list
and a zero Decimal price each become None in the DTO. -/
def MarketDataResponse.from_entity (md : MarketData) : MarketDataResponse :=
  let tickers_dto : Option (List TickerResponse) :=
    match md.tickers with
    | some ts =>
        if ts.isEmpty then none else some (ts.map TickerResponse.from_entity)
    | none => none
  let latest_ticker_dto := md.latest_ticker.map TickerResponse.from_entity
  let percent_change_dto :=
    md.percent_change.map SymbolPctChangeResponse.from_entity
  { symbol := md.symbol
    latest_ticker := latest_ticker_dto
    tickers := tickers_dto
    percent_change := percent_change_dto
    current_price :=
      match md.current_price with
      | some p => if p = 0 then none else some p
      | none => none
    price_range := md.calculate_price_range }

/-- One JSON element handed to the client ticker adapter: every field may
be missing. -/
structure TickerJson where
  time : Option String := none
  open_price : Option ℚ := none
  high : Option ℚ := none
  low : Option ℚ := none
  close : Option ℚ := none
  volume : Option ℤ := none
  deriving DecidableEq, Repr

/-- TickerRepositoryAdapter._map_to_ticker: price fields default to 0, the
volume to 0, and a missing or empty time string to the current time (the
parse of a non-empty string is kept symbolic); the resulting values go
through the Ticker construction checks. -/
def TickerRepositoryAdapter.map_to_ticker (symbol : String)
    (d : TickerJson) : Except String Ticker :=
  let time_str := d.time.getD ""
  let time_obj : TimeVal :=
    if time_str = "" then .currentTime else .parsed time_str
  Ticker.make symbol time_obj (d.open_price.getD 0) (d.high.getD 0)
    (d.low.getD 0) (d.close.getD 0) (d.volume.getD 0)

/-- The aggregate statistics block computed by
MarketAnalysisUseCase.analyze_symbols. -/
structure AnalysisStatistics where
  total_symbols : ℕ
  valid_symbols : ℕ
  positive_count : ℕ
  negative_count : ℕ
  average_change : ℚ
  market_sentiment : String
  deriving DecidableEq, Repr

/-- The statistics computation of MarketAnalysisUseCase.analyze_symbols
over the fetched percent changes.  The source compares integer counts
against total_count * 0.6 in double precision; for counts in any feasible
range that comparison coincides with the exact comparison against
total_count * (6/10) used here. -/
def MarketAnalysisUseCase.analyze_symbols_statistics (symbolCount : ℕ)
    (pct_changes : List SymbolPercentChange) : AnalysisStatistics :=
  let valid_changes := pct_changes.filter (fun p => p.is_valid)
  if !valid_changes.isEmpty then
    let positive_count :=
      (valid_changes.filter (fun p => p.is_positive)).length
    let negative_count :=
      (valid_changes.filter (fun p => p.is_negative)).length
    let total_count := valid_changes.length
    let avg_change :=
      (valid_changes.map (fun p => p.pct_change)).sum / (total_count : ℚ)
    let market_sentiment :=
      if (positive_count : ℚ) > (total_count : ℚ) * (6/10) then "bullish"
      else if (negative_count : ℚ) > (total_count : ℚ) * (6/10) then
        "bearish"
      else "neutral"
    ⟨symbolCount, total_count, positive_count, negative_count, avg_change,
      market_sentiment⟩
  else ⟨symbolCount, 0, 0, 0, 0, "unknown"⟩

end Client

namespace Server

/-- Server layered Ticker entity (src/domain/entities); the timeframe is
kept as its integer code. -/
structure Ticker where
  symbol : String
  timeframe : ℤ
  timestamp : TimeVal
  open_price : ℚ
  high_price : ℚ
  low_price : ℚ
  close_price : ℚ
  volume : ℤ
  deriving DecidableEq, Repr

/-- Server Ticker construction with the `__post_init__` checks. -/
def Ticker.make (symbol : String) (timeframe : ℤ) (timestamp : TimeVal)
    (open_price high_price low_price close_price : ℚ) (volume : ℤ) :
    Except String Ticker :=
  if symbol = "" then .error "Symbol cannot be empty"
  else if high_price < max open_price close_price then
    .error "High price must be >= open and close prices"
  else if low_price > min open_price close_price then
    .error "Low price must be <= open and close prices"
  else if volume < 0 then .error "Volume must be non-negative"
  else .ok ⟨symbol, timeframe, timestamp, open_price, high_price, low_price,
            close_price, volume⟩

/-- Order types for trading operations (src/domain/entities OrderType). -/
inductive OrderType where
  | BUY
  | SELL
  deriving DecidableEq, Repr

/-- Trade request entity (src/domain/entities TradeRequest). -/
structure TradeRequest where
  symbol : String
  volume : ℚ
  order_type : OrderType
  price : Option ℚ := none
  stop_loss : Option ℚ := none
  take_profit : Option ℚ := none
  deviation : ℤ := 20
  comment : String := ""
  magic_number : ℤ := 234000
  deriving DecidableEq, Repr

/-- Python truthiness of an optional Decimal: present and nonzero (both
None and Decimal zero are falsy). -/
def decimalTruthy (q : Option ℚ) : Bool :=
  match q with
  | some x => if x = 0 then false else true
  | none => false

/-- TradeRequest.validate, with the protective-level checks guarded by the
source condition, Python `if self.price and self.stop_loss and
self.take_profit`, which tests truthiness, not presence. -/
def TradeRequest.validate (r : TradeRequest) : Except String Unit :=
  if r.symbol = "" then .error "Symbol cannot be empty"
  else if r.volume ≤ 0 then .error "Volume must be positive"
  else if r.deviation < 0 then .error "Deviation must be non-negative"
  else if decimalTruthy r.price && decimalTruthy r.stop_loss &&
      decimalTruthy r.take_profit then
    match r.price, r.stop_loss, r.take_profit, r.order_type with
    | some p, some sl, some tp, .BUY =>
        if sl ≥ p then
          .error "Stop loss must be below entry price for BUY orders"
        else if tp ≤ p then
          .error "Take profit must be above entry price for BUY orders"
        else .ok ()
    | some p, some sl, some tp, .SELL =>
        if sl ≤ p then
          .error "Stop loss must be above entry price for SELL orders"
        else if tp ≥ p then
          .error "Take profit must be below entry price for SELL orders"
        else .ok ()
    | _, _, _, _ => .ok ()
  else .ok ()

/-- The rejection condition of claim C7 as worded: validate raises exactly
when the symbol is empty, the volume is not positive, the deviation is
negative, or, when price, stop_loss and take_profit are all given, a
protective level is on the wrong side of the price. -/
def TradeRequest.spec_rejects (r : TradeRequest) : Prop :=
  r.symbol = "" ∨ r.volume ≤ 0 ∨ r.deviation < 0 ∨
  (∃ p sl tp, r.price = some p ∧ r.stop_loss = some sl ∧
    r.take_profit = some tp ∧
    ((r.order_type = .BUY ∧ ¬(sl < p ∧ p < tp)) ∨
     (r.order_type = .SELL ∧ ¬(tp < p ∧ p < sl))))

/-- The rejection condition amended to the code: the protective-level
checks apply only when price, stop_loss and take_profit are all given and
nonzero (a zero Decimal is falsy in the Python guard). -/
def TradeRequest.spec_rejects_amended (r : TradeRequest) : Prop :=
  r.symbol = "" ∨ r.volume ≤ 0 ∨ r.deviation < 0 ∨
  (∃ p sl tp, r.price = some p ∧ r.stop_loss = some sl ∧
    r.take_profit = some tp ∧ p ≠ 0 ∧ sl ≠ 0 ∧ tp ≠ 0 ∧
    ((r.order_type = .BUY ∧ ¬(sl < p ∧ p < tp)) ∨
     (r.order_type = .SELL ∧ ¬(tp < p ∧ p < sl))))

end Server

/-- Python str.startswith over the UTF-8 character sequence: a character by
character prefix check. -/
def strStartsWith (s p : String) : Bool := List.isPrefixOf p.data s.data

/-- The monolith's hardcoded default API key (server/app.py). -/
def defaultApiKey : String :=
  "cb9c4299c9ac5437d74c22fad0314cc16e3615c4c802855fdc1287eb69dd57b4"

/-- The monolith's accepted-key list (server/app.py, module level): the
hardcoded default key plus the comma-separated API_KEYS environment value
(unset or empty contributes nothing), with falsy (empty) entries dropped. -/
def API_KEYS (env : Option String) : List String :=
  let envKeys : List String :=
    match env with
    | some s => if s = "" then [] else s.splitOn ","
    | none => []
  ([defaultApiKey] ++ envKeys).filter (fun k => !(k == ""))

/-- Outcome of the monolith's auth middleware on one request: which branch
produced the response. -/
inductive MonoAuthResult where
  | publicPass
  | docsPass
  | emptyKeysPass
  | unauthorized
  | processed
  deriving DecidableEq, Repr

def monolithPublicPaths : List String := ["/", "/health"]

def monolithDocsPaths : List String := ["/docs", "/redoc", "/openapi.json"]

/-- server/app.py auth_middleware: pass through public and docs path
prefixes, pass everything when the accepted-key list is empty, otherwise
require the AcessKey or Authorization header (Python `or`: an empty header
is falsy) to be one of the accepted keys, else respond 401. -/
def auth_middleware (apiKeys : List String) (path : String)
    (acessKey authorization : Option String) : MonoAuthResult :=
  if monolithPublicPaths.any (fun p => strStartsWith path p) then .publicPass
  else if monolithDocsPaths.any (fun p => strStartsWith path p) then .docsPass
  else if apiKeys.isEmpty then .emptyKeysPass
  else
    match pyOr acessKey authorization with
    | none => .unauthorized
    | some api_key =>
        if api_key = "" then .unauthorized
        else if apiKeys.contains api_key then .processed
        else .unauthorized

/-- Outcome of the layered server's authentication middleware. -/
inductive LayeredAuthResult where
  | publicPass
  | missingKey
  | invalidKey
  | processed
  deriving DecidableEq, Repr

def layeredPublicEndpoints : List String :=
  ["/docs", "/redoc", "/openapi.json", "/health", "/"]

/-- SimpleAuthenticationService.validate_api_key: an empty key is refused,
otherwise membership in the configured key list. -/
def validate_api_key (validKeys : List String) (api_key : String) : Bool :=
  if api_key = "" then false else validKeys.contains api_key

/-- src/presentation/middleware AuthenticationMiddleware.dispatch: skip
authentication for public endpoint prefixes; otherwise take the AcessKey or
Authorization header, 401 MISSING_API_KEY when absent, strip a leading
Bearer prefix, 401 INVALID_API_KEY when validation fails. -/
def AuthenticationMiddleware.dispatch (validKeys : List String)
    (path : String) (acessKey authorization : Option String) :
    LayeredAuthResult :=
  if layeredPublicEndpoints.any (fun e => strStartsWith path e) then
    .publicPass
  else
    match pyOr acessKey authorization with
    | none => .missingKey
    | some api_key =>
        if api_key = "" then .missingKey
        else
          let key := if strStartsWith api_key "Bearer " then api_key.drop 7
            else api_key
          if validate_api_key validKeys key then .processed else .invalidKey

/-- One per-symbol result row of a percent-change batch: symbol name,
pct_change, and the per-symbol error message when one was captured. -/
structure PctEntry where
  symbol : String
  pct_change : ℚ
  error : Option String
  deriving DecidableEq, Repr

/-- The loop body of monolith /GetSymbolsPctChange/ (app.py
get_symbols_pct_change) for one symbol.  `fetch` stands for
get_tickers_by_count(symbol, timeframe, 2) and yields the close prices of
the returned candles in order, or the raised error message; an exception
is captured as a per-symbol error entry. -/
def pctEntryFor (fetch : String → Except String (List ℚ))
    (symbol : String) : PctEntry :=
  match fetch symbol with
  | .error e => ⟨symbol, 0, some e⟩
  | .ok tickers =>
      let pct_change : ℚ :=
        if 2 ≤ tickers.length then
          let prev_close := tickers.getD 0 0
          let curr_close := tickers.getD 1 0
          if 0 < prev_close then
            ((curr_close - prev_close) / prev_close) * 100
          else 0
        else 0
      ⟨symbol, round4 pct_change, none⟩

/-- Monolith /GetSymbolsPctChange/: one result row per requested symbol,
in order; a failure for one symbol never aborts the rest. -/
def get_symbols_pct_change (fetch : String → Except String (List ℚ))
    (actives : List String) : List PctEntry :=
  actives.map (pctEntryFor fetch)

namespace Server

/-- The loop body of the layered GetSymbolsPercentChangeUseCase.execute
for one symbol: names are trimmed and uppercased, unknown symbols yield a
Symbol-not-found row, fetch failures a descriptive error row. -/
def layeredPctEntryFor (knownSymbols : List String)
    (fetch : String → Except String (List ℚ))
    (symbol_name : String) : PctEntry :=
  let name := pyUpper (pyStrip symbol_name)
  if !(knownSymbols.contains name) then ⟨name, 0, some "Symbol not found"⟩
  else
    match fetch name with
    | .error e => ⟨name, 0, some ("Failed to calculate change: " ++ e)⟩
    | .ok tickers =>
        let pct_change : ℚ :=
          if 2 ≤ tickers.length then
            let previous_close := tickers.getD 0 0
            let current_close := tickers.getD 1 0
            if 0 < previous_close then
              ((current_close - previous_close) / previous_close) * 100
            else 0
          else 0
        ⟨name, round4 pct_change, none⟩

/-- GetSymbolsPercentChangeRequest.validate_symbol_list (layered server
application DTOs): reject an empty submitted list, then trim and uppercase
each entry, silently dropping entries that are empty after trimming. -/
def validate_symbol_list (v : List String) : Except String (List String) :=
  if v.isEmpty then .error "Symbol list cannot be empty"
  else .ok ((v.filter (fun s => !(pyStrip s == ""))).map
    (fun s => pyUpper (pyStrip s)))

/-- Layered GetSymbolsPercentChangeUseCase.execute: validates the batch
size, then produces one row per symbol. -/
def GetSymbolsPercentChangeUseCase.execute (knownSymbols : List String)
    (fetch : String → Except String (List ℚ))
    (symbols : List String) : Except String (List PctEntry) :=
  if symbols.isEmpty then .error "Symbols list cannot be empty"
  else if 1000 < symbols.length then
    .error "Cannot process more than 1000 symbols for performance reasons"
  else .ok (symbols.map (layeredPctEntryFor knownSymbols fetch))

end Server

end MT5

namespace MT5

/-- The accepted-key list of the monolith always starts with the default
key, whatever the API_KEYS environment variable holds. -/
theorem API_KEYS_head (env : Option String) :
    ∃ rest, API_KEYS env = defaultApiKey :: rest := by
  unfold API_KEYS
  cases env with
  | none => exact ⟨[], rfl⟩
  | some s =>
    by_cases hs : s = ""
    · subst hs; exact ⟨[], rfl⟩
    · dsimp only
      rw [if_neg hs]
      refine ⟨(s.splitOn ",").filter (fun k => !(k == "")), ?_⟩
      rw [List.singleton_append, List.filter_cons, if_pos (by rfl)]

/-- C1: the spec and the repository's own authentication test scripts
expect a request to a protected path without an accepted key to receive
status 401; in the code, every request path begins with the slash character,
so the public-path prefix check passes every request through and the 401
branch is unreachable.  At the failing input (path /GetSymbols/, no
AcessKey or Authorization header, accepted-key set non-empty) both the
monolith middleware and the layered middleware pass the request through
instead of responding 401. -/
theorem C1_auth_middleware_bypasses_protected_paths :
    API_KEYS none ≠ [] ∧
    auth_middleware (API_KEYS none) "/GetSymbols/" none none =
      .publicPass ∧
    AuthenticationMiddleware.dispatch (API_KEYS none) "/GetSymbols/"
      none none = .publicPass ∧
    (∀ keys a b, auth_middleware keys "/GetSymbols/" a b = .publicPass) ∧
    (∀ keys a b, AuthenticationMiddleware.dispatch keys "/GetSymbols/" a b =
      .publicPass) := by
  refine ⟨by decide, rfl, rfl, ?_, ?_⟩
  · intro keys a b; rfl
  · intro keys a b; rfl

/-- C10: whatever the API_KEYS environment variable holds (set or unset),
the monolith's accepted-key list contains the hardcoded default key and is
never empty, so the middleware branch passing all requests when the key set
is empty is unreachable in the monolith as shipped. -/
theorem C10_default_key_always_present :
    (∀ env, defaultApiKey ∈ API_KEYS env ∧ API_KEYS env ≠ []) ∧
    (∀ env path a b,
      auth_middleware (API_KEYS env) path a b ≠ .emptyKeysPass) := by
  constructor
  · intro env
    obtain ⟨rest, hk⟩ := API_KEYS_head env
    rw [hk]
    exact ⟨List.mem_cons_self _ _, by simp⟩
  · intro env path a b
    obtain ⟨rest, hk⟩ := API_KEYS_head env
    unfold auth_middleware
    rw [hk]
    split_ifs with hp hd he
    · simp
    · simp
    · simp [List.isEmpty] at he
    · cases pyOr a b with
      | none => simp
      | some k =>
        by_cases hk0 : k = ""
        · simp [hk0]
        · simp only [hk0, if_false]
          split_ifs <;> simp

/-- Rounding zero to four decimals is zero. -/
theorem round4_zero : round4 0 = 0 := by
  norm_num [round4, round_eq]

/-- C2 fails as stated: with two candles returned whose previous close is
negative (-1, then 1), the code yields pct_change 0.0 (its guard is
previous close > 0, not only a zero test), while the claimed formula
demands -200. -/
theorem C2_counterexample :
    get_symbols_pct_change (fun _ => .ok [(-1 : ℚ), 1]) ["X"] =
      [⟨"X", 0, none⟩] ∧
    round4 ((((1 : ℚ) - (-1)) / (-1)) * 100) = -200 ∧
    (0 : ℚ) ≠ -200 := by
  refine ⟨?_, by norm_num [round4, round_eq], by norm_num⟩
  simp only [get_symbols_pct_change, pctEntryFor, List.map_cons,
    List.map_nil]
  norm_num [round4_zero]

/-- C2 amended: for every symbol of a percent-change batch (monolith
endpoint and layered use case), with at least 2 candles and a positive
previous close, pct_change is the rounded relative change of the two
closes; pct_change is 0.0 when fewer than 2 candles are returned or the
previous close is not positive; a fetch failure becomes a per-symbol error
row with pct_change 0.0; unknown symbols on the layered path become
Symbol-not-found rows; and the batch always produces one row per requested
symbol, never aborting on one symbol's failure. -/
theorem C2_pct_change_amended :
    (∀ fetch symbol closes, fetch symbol = .ok closes →
      2 ≤ closes.length → 0 < closes.getD 0 0 →
      pctEntryFor fetch symbol =
        ⟨symbol, round4 (((closes.getD 1 0 - closes.getD 0 0) /
          closes.getD 0 0) * 100), none⟩) ∧
    (∀ fetch symbol closes, fetch symbol = .ok closes →
      (closes.length < 2 ∨ closes.getD 0 0 ≤ 0) →
      pctEntryFor fetch symbol = ⟨symbol, 0, none⟩) ∧
    (∀ fetch symbol e, fetch symbol = .error e →
      pctEntryFor fetch symbol = ⟨symbol, 0, some e⟩) ∧
    (∀ fetch actives,
      (get_symbols_pct_change fetch actives).length = actives.length ∧
      ∀ symbol ∈ actives,
        pctEntryFor fetch symbol ∈ get_symbols_pct_change fetch actives) ∧
    (∀ known fetch name closes,
      known.contains (pyUpper (pyStrip name)) = true →
      fetch (pyUpper (pyStrip name)) = .ok closes →
      2 ≤ closes.length → 0 < closes.getD 0 0 →
      Server.layeredPctEntryFor known fetch name =
        ⟨pyUpper (pyStrip name), round4 (((closes.getD 1 0 - closes.getD 0 0) /
          closes.getD 0 0) * 100), none⟩) ∧
    (∀ known fetch name e,
      known.contains (pyUpper (pyStrip name)) = true →
      fetch (pyUpper (pyStrip name)) = .error e →
      Server.layeredPctEntryFor known fetch name =
        ⟨pyUpper (pyStrip name), 0,
          some ("Failed to calculate change: " ++ e)⟩) ∧
    (∀ known fetch name,
      known.contains (pyUpper (pyStrip name)) = false →
      Server.layeredPctEntryFor known fetch name =
        ⟨pyUpper (pyStrip name), 0, some "Symbol not found"⟩) ∧
    (∀ known fetch symbols, symbols ≠ [] → symbols.length ≤ 1000 →
      Server.GetSymbolsPercentChangeUseCase.execute known fetch symbols =
        .ok (symbols.map (Server.layeredPctEntryFor known fetch))) := by
  refine ⟨?_, ?_, ?_, ?_, ?_, ?_, ?_, ?_⟩
  · intro fetch symbol closes hfetch hlen hprev
    unfold pctEntryFor
    rw [hfetch]
    dsimp only
    rw [if_pos hlen, if_pos hprev]
  · intro fetch symbol closes hfetch hcase
    unfold pctEntryFor
    rw [hfetch]
    dsimp only
    rcases hcase with hlen | hprev
    · rw [if_neg (not_le.mpr hlen), round4_zero]
    · by_cases hlen : 2 ≤ closes.length
      · rw [if_pos hlen, if_neg (not_lt.mpr hprev), round4_zero]
      · rw [if_neg hlen, round4_zero]
  · intro fetch symbol e hfetch
    unfold pctEntryFor
    rw [hfetch]
  · intro fetch actives
    refine ⟨List.length_map _ _, ?_⟩
    intro symbol hmem
    exact List.mem_map_of_mem _ hmem
  · intro known fetch name closes hknown hfetch hlen hprev
    unfold Server.layeredPctEntryFor
    rw [if_neg (by simpa using hknown)]
    rw [hfetch]
    dsimp only
    rw [if_pos hlen, if_pos hprev]
  · intro known fetch name e hknown hfetch
    unfold Server.layeredPctEntryFor
    rw [if_neg (by simpa using hknown)]
    rw [hfetch]
  · intro known fetch name hknown
    unfold Server.layeredPctEntryFor
    rw [if_pos (by simpa using hknown)]
  · intro known fetch symbols hne hlen
    unfold Server.GetSymbolsPercentChangeUseCase.execute
    rw [if_neg (by simp [hne]), if_neg (not_lt.mpr hlen)]

/-- C3: constructing a Ticker (client entity or server layered entity)
succeeds if and only if the symbol is non-empty, high ≥ max(open, close),
low ≤ min(open, close), and volume ≥ 0; in particular the instance
open=1.10, close=1.12, high=1.11 fails to construct on both entities. -/
theorem C3_ticker_invariants :
    (∀ (symbol : String) (time : TimeVal) (o hi lo c : ℚ) (v : ℤ),
      exceptOk (Client.Ticker.make symbol time o hi lo c v) = true ↔
        (symbol ≠ "" ∧ max o c ≤ hi ∧ lo ≤ min o c ∧ 0 ≤ v)) ∧
    (∀ (symbol : String) (tf : ℤ) (ts : TimeVal) (o hi lo c : ℚ) (v : ℤ),
      exceptOk (Server.Ticker.make symbol tf ts o hi lo c v) = true ↔
        (symbol ≠ "" ∧ max o c ≤ hi ∧ lo ≤ min o c ∧ 0 ≤ v)) ∧
    exceptOk (Client.Ticker.make "EURUSD" .currentTime (110/100) (111/100)
      (109/100) (112/100) 100) = false ∧
    exceptOk (Server.Ticker.make "EURUSD" 1 .currentTime (110/100) (111/100)
      (109/100) (112/100) 100) = false := by
  refine ⟨?_, ?_, ?_, ?_⟩
  · intro symbol time o hi lo c v
    unfold Client.Ticker.make
    by_cases h1 : symbol = ""
    · rw [if_pos h1]
      simp only [exceptOk, Bool.false_eq_true, false_iff]
      rintro ⟨hs, -⟩; exact hs h1
    rw [if_neg h1]
    by_cases h2 : hi < lo
    · rw [if_pos h2]
      simp only [exceptOk, Bool.false_eq_true, false_iff]
      rintro ⟨-, hmax, hmin, -⟩
      rw [max_le_iff] at hmax; rw [le_min_iff] at hmin
      exact absurd (le_trans hmin.1 hmax.1) (not_le.mpr h2)
    rw [if_neg h2]
    by_cases h3 : lo ≤ o ∧ o ≤ hi
    · rw [if_neg (not_not.mpr h3)]
      by_cases h4 : lo ≤ c ∧ c ≤ hi
      · rw [if_neg (not_not.mpr h4)]
        by_cases h5 : v < 0
        · rw [if_pos h5]
          simp only [exceptOk, Bool.false_eq_true, false_iff]
          rintro ⟨-, -, -, hv⟩; exact absurd hv (not_le.mpr h5)
        · rw [if_neg h5]
          simp only [exceptOk, true_iff]
          exact ⟨h1, max_le_iff.mpr ⟨h3.2, h4.2⟩, le_min_iff.mpr ⟨h3.1, h4.1⟩,
            not_lt.mp h5⟩
      · rw [if_pos h4]
        simp only [exceptOk, Bool.false_eq_true, false_iff]
        rintro ⟨-, hmax, hmin, -⟩
        rw [max_le_iff] at hmax; rw [le_min_iff] at hmin
        exact h4 ⟨hmin.2, hmax.2⟩
    · rw [if_pos h3]
      simp only [exceptOk, Bool.false_eq_true, false_iff]
      rintro ⟨-, hmax, hmin, -⟩
      rw [max_le_iff] at hmax; rw [le_min_iff] at hmin
      exact h3 ⟨hmin.1, hmax.1⟩
  · intro symbol tf ts o hi lo c v
    unfold Server.Ticker.make
    by_cases h1 : symbol = ""
    · rw [if_pos h1]
      simp only [exceptOk, Bool.false_eq_true, false_iff]
      rintro ⟨hs, -⟩; exact hs h1
    rw [if_neg h1]
    by_cases h2 : hi < max o c
    · rw [if_pos h2]
      simp only [exceptOk, Bool.false_eq_true, false_iff]
      rintro ⟨-, hmax, -, -⟩; exact absurd hmax (not_le.mpr h2)
    rw [if_neg h2]
    by_cases h3 : lo > min o c
    · rw [if_pos h3]
      simp only [exceptOk, Bool.false_eq_true, false_iff]
      rintro ⟨-, -, hmin, -⟩; exact absurd hmin (not_le.mpr h3)
    rw [if_neg h3]
    by_cases h4 : v < 0
    · rw [if_pos h4]
      simp only [exceptOk, Bool.false_eq_true, false_iff]
      rintro ⟨-, -, -, hv⟩; exact absurd hv (not_le.mpr h4)
    · rw [if_neg h4]
      simp only [exceptOk, true_iff]
      exact ⟨h1, not_lt.mp h2, not_lt.mp h3, not_lt.mp h4⟩
  · unfold Client.Ticker.make
    rw [if_neg (by decide)]
    norm_num [exceptOk]
  · unfold Server.Ticker.make
    rw [if_neg (by decide)]
    norm_num [exceptOk]

/-- Unfolding the retry loop when the current attempt fails on a number
of consecutive attempts and then succeeds. -/
theorem postGo_ok {ε α : Type} (outcomes : ℕ → Except ε α) (m : ℕ)
    (v : α) : ∀ (n attempt a s : ℕ), attempt + n < m →
    (∀ i, attempt ≤ i → i < attempt + n → exceptOk (outcomes i) = false) →
    outcomes (attempt + n) = .ok v →
    Client.postGo outcomes m attempt a s = (.ok v, a + n + 1, s + n) := by
  intro n
  induction n with
  | zero =>
    intro attempt a s hlt hfail hok
    rw [Client.postGo, dif_pos (by omega : attempt < m),
      show outcomes attempt = .ok v from hok]
    rfl
  | succ k ih =>
    intro attempt a s hlt hfail hok
    have h1 : attempt < m := by omega
    have hf : exceptOk (outcomes attempt) = false :=
      hfail attempt le_rfl (by omega)
    cases hout : outcomes attempt with
    | ok w => rw [hout] at hf; simp [exceptOk] at hf
    | error e =>
      rw [Client.postGo, dif_pos h1, hout]
      dsimp only
      rw [if_neg (by omega : ¬ attempt = m - 1)]
      have hrec := ih (attempt + 1) (a + 1) (s + 1) (by omega)
        (fun i hi1 hi2 => hfail i (by omega) (by omega))
        (by rw [show attempt + 1 + k = attempt + (k + 1) from by omega]
            exact hok)
      rw [hrec]
      simp only [Prod.mk.injEq]
      exact ⟨by trivial, by omega, by omega⟩

/-- Unfolding the retry loop when every attempt up to the last one
fails. -/
theorem postGo_fail {ε α : Type} (outcomes : ℕ → Except ε α) (m : ℕ)
    (e : ε) : ∀ (n attempt a s : ℕ), attempt + n + 1 = m →
    (∀ i, attempt ≤ i → i < m → exceptOk (outcomes i) = false) →
    outcomes (m - 1) = .error e →
    Client.postGo outcomes m attempt a s = (.raised e, a + n + 1, s + n) := by
  intro n
  induction n with
  | zero =>
    intro attempt a s hm hfail herr
    have hout : outcomes attempt = .error e := by
      rw [show attempt = m - 1 from by omega]; exact herr
    rw [Client.postGo, dif_pos (by omega : attempt < m), hout]
    dsimp only
    rw [if_pos (by omega : attempt = m - 1)]
    rfl
  | succ k ih =>
    intro attempt a s hm hfail herr
    have h1 : attempt < m := by omega
    have hf : exceptOk (outcomes attempt) = false :=
      hfail attempt le_rfl (by omega)
    cases hout : outcomes attempt with
    | ok w => rw [hout] at hf; simp [exceptOk] at hf
    | error e2 =>
      rw [Client.postGo, dif_pos h1, hout]
      dsimp only
      rw [if_neg (by omega : ¬ attempt = m - 1)]
      have hrec := ih (attempt + 1) (a + 1) (s + 1) (by omega)
        (fun i hi1 hi2 => hfail i (by omega) hi2) herr
      rw [hrec]
      simp only [Prod.mk.injEq]
      exact ⟨by trivial, by omega, by omega⟩

/-- C4: a client HTTP call that fails on fewer than max_retries attempts
and then succeeds returns the successful result, after exactly one attempt
per failure plus the successful one and one sleep between consecutive
attempts; a call whose max_retries attempts (at least one) all fail
re-raises the final transport error after exactly max_retries attempts
with max_retries - 1 sleeps (none after the last attempt). -/
theorem C4_http_retry :
    (∀ (ε α : Type) (outcomes : ℕ → Except ε α) (maxRetries k : ℕ)
      (v : α), k < maxRetries →
      (∀ i, i < k → exceptOk (outcomes i) = false) →
      outcomes k = .ok v →
      Client.HttpClient.post outcomes maxRetries = (.ok v, k + 1, k)) ∧
    (∀ (ε α : Type) (outcomes : ℕ → Except ε α) (maxRetries : ℕ) (e : ε),
      1 ≤ maxRetries →
      (∀ i, i < maxRetries → exceptOk (outcomes i) = false) →
      outcomes (maxRetries - 1) = .error e →
      Client.HttpClient.post outcomes maxRetries =
        (.raised e, maxRetries, maxRetries - 1)) := by
  constructor
  · intro ε α outcomes maxRetries k v hk hfail hok
    have h := postGo_ok outcomes maxRetries v k 0 0 0 (by omega)
      (fun i hi1 hi2 => hfail i (by omega))
      (by rw [Nat.zero_add]; exact hok)
    rw [Client.HttpClient.post, h]
    simp only [Prod.mk.injEq]
    exact ⟨by trivial, by omega, by omega⟩
  · intro ε α outcomes maxRetries e hm hfail herr
    have h := postGo_fail outcomes maxRetries e (maxRetries - 1) 0 0 0
      (by omega) (fun i hi1 hi2 => hfail i hi2) herr
    rw [Client.HttpClient.post, h]
    simp only [Prod.mk.injEq]
    exact ⟨by trivial, by omega, by omega⟩

/-- C4 at concrete inputs: two timeouts then success with max_retries 3
returns the value after 3 attempts and 2 sleeps; three straight transport
errors re-raise the final error after 3 attempts and 2 sleeps. -/
theorem C4_http_retry_witness :
    Client.HttpClient.post
      (fun i => if i < 2 then .error "timeout" else .ok (42 : ℚ)) 3 =
      (.ok 42, 3, 2) ∧
    Client.HttpClient.post (fun _ => (.error "down" : Except String ℚ)) 3 =
      (.raised "down", 3, 2) := by
  constructor
  · exact C4_http_retry.1 String ℚ
      (fun i => if i < 2 then .error "timeout" else .ok (42 : ℚ)) 3 2 42
      (by omega) (fun i hi => by simp [exceptOk, hi]) (by norm_num)
  · exact C4_http_retry.2 String ℚ (fun _ => .error "down") 3 "down"
      (by omega) (fun i hi => by simp [exceptOk]) rfl

/-- C7 fails as stated: a BUY request whose given price is the Decimal
zero skips the protective-level checks entirely (zero is falsy in the
Python guard), so validate accepts a request the claim says must raise
(stop_loss 1 is not strictly below price 0). -/
theorem C7_counterexample :
    exceptOk (Server.TradeRequest.validate
      ⟨"EURUSD", 1, .BUY, some 0, some 1, some 2, 20, "", 234000⟩) = true ∧
    Server.TradeRequest.spec_rejects
      ⟨"EURUSD", 1, .BUY, some 0, some 1, some 2, 20, "", 234000⟩ := by
  constructor
  · rfl
  · refine Or.inr (Or.inr (Or.inr ⟨0, 1, 2, rfl, rfl, rfl,
      Or.inl ⟨rfl, ?_⟩⟩))
    rintro ⟨h, -⟩
    norm_num at h

/-- C7 amended: validate raises exactly when the symbol is empty, the
volume is not positive, the deviation is negative, or price, stop_loss and
take_profit are all given and nonzero with a protective level on the wrong
side of the price; the claim's concrete BUY at price 1.1000 passes with
stop_loss 1.0990 / take_profit 1.1050 and fails with stop_loss 1.1010. -/
theorem C7_validate_amended :
    (∀ r : Server.TradeRequest,
      exceptOk r.validate = true ↔ ¬ r.spec_rejects_amended) ∧
    exceptOk (Server.TradeRequest.validate
      ⟨"EURUSD", 1, .BUY, some (11000/10000), some (10990/10000),
        some (11050/10000), 20, "", 234000⟩) = true ∧
    exceptOk (Server.TradeRequest.validate
      ⟨"EURUSD", 1, .BUY, some (11000/10000), some (11010/10000),
        some (11050/10000), 20, "", 234000⟩) = false := by
  refine ⟨?_, ?_, ?_⟩
  · rintro ⟨symbol, volume, order_type, price, stop_loss, take_profit,
      deviation, comment, magic_number⟩
    unfold Server.TradeRequest.validate Server.TradeRequest.spec_rejects_amended
    dsimp only
    by_cases h1 : symbol = ""
    · simp [h1, exceptOk]
    by_cases h2 : volume ≤ 0
    · rw [if_neg h1, if_pos h2]
      simp [h1, h2, exceptOk]
    by_cases h3 : deviation < 0
    · rw [if_neg h1, if_neg h2, if_pos h3]
      simp [h1, h2, h3, exceptOk]
    rw [if_neg h1, if_neg h2, if_neg h3]
    rcases price with - | p
    · simp [Server.decimalTruthy, exceptOk, h1, h2, h3]
    rcases stop_loss with - | sl
    · simp [Server.decimalTruthy, exceptOk, h1, h2, h3]
    rcases take_profit with - | tp
    · simp [Server.decimalTruthy, exceptOk, h1, h2, h3]
    by_cases hp : p = 0
    · simp [Server.decimalTruthy, exceptOk, h1, h2, h3, hp]
    by_cases hsl : sl = 0
    · simp [Server.decimalTruthy, exceptOk, h1, h2, h3, hp, hsl]
    by_cases htp : tp = 0
    · simp [Server.decimalTruthy, exceptOk, h1, h2, h3, hp, hsl, htp]
    have hguard : (Server.decimalTruthy (some p) &&
        Server.decimalTruthy (some sl) &&
        Server.decimalTruthy (some tp)) = true := by
      simp [Server.decimalTruthy, hp, hsl, htp]
    rw [if_pos hguard]
    cases order_type with
    | BUY =>
      dsimp only
      by_cases hge : sl ≥ p
      · rw [if_pos hge]
        simp only [exceptOk, Bool.false_eq_true, false_iff, not_not]
        refine Or.inr (Or.inr (Or.inr ⟨p, sl, tp, rfl, rfl, rfl, hp, hsl,
          htp, Or.inl ⟨by trivial, ?_⟩⟩))
        rintro ⟨h, -⟩
        exact absurd h (not_lt.mpr hge)
      rw [if_neg hge]
      by_cases hle : tp ≤ p
      · rw [if_pos hle]
        simp only [exceptOk, Bool.false_eq_true, false_iff, not_not]
        refine Or.inr (Or.inr (Or.inr ⟨p, sl, tp, rfl, rfl, rfl, hp, hsl,
          htp, Or.inl ⟨by trivial, ?_⟩⟩))
        rintro ⟨-, h⟩
        exact absurd h (not_lt.mpr hle)
      · rw [if_neg hle]
        simp only [exceptOk, true_iff]
        simp only [h1, h2, h3, false_or, Option.some.injEq]
        rintro ⟨p2, sl2, tp2, hpe, hsle, htpe, -, -, -, hbad⟩
        subst hpe; subst hsle; subst htpe
        rcases hbad with ⟨-, hno⟩ | ⟨hcon, -⟩
        · exact hno ⟨not_le.mp hge, not_le.mp hle⟩
        · cases hcon
    | SELL =>
      dsimp only
      by_cases hge : sl ≤ p
      · rw [if_pos hge]
        simp only [exceptOk, Bool.false_eq_true, false_iff, not_not]
        refine Or.inr (Or.inr (Or.inr ⟨p, sl, tp, rfl, rfl, rfl, hp, hsl,
          htp, Or.inr ⟨by trivial, ?_⟩⟩))
        rintro ⟨-, h⟩
        exact absurd h (not_lt.mpr hge)
      rw [if_neg hge]
      by_cases hle : tp ≥ p
      · rw [if_pos hle]
        simp only [exceptOk, Bool.false_eq_true, false_iff, not_not]
        refine Or.inr (Or.inr (Or.inr ⟨p, sl, tp, rfl, rfl, rfl, hp, hsl,
          htp, Or.inr ⟨by trivial, ?_⟩⟩))
        rintro ⟨h, -⟩
        exact absurd h (not_lt.mpr hle)
      · rw [if_neg hle]
        simp only [exceptOk, true_iff]
        simp only [h1, h2, h3, false_or, Option.some.injEq]
        rintro ⟨p2, sl2, tp2, hpe, hsle, htpe, -, -, -, hbad⟩
        subst hpe; subst hsle; subst htpe
        rcases hbad with ⟨hcon, -⟩ | ⟨-, hno⟩
        · cases hcon
        · exact hno ⟨not_le.mp hle, not_le.mp hge⟩
  · unfold Server.TradeRequest.validate
    norm_num [Server.decimalTruthy, exceptOk]
    rw [if_neg (by decide)]
  · unfold Server.TradeRequest.validate
    norm_num [Server.decimalTruthy, exceptOk]
    rw [if_neg (by decide)]

/-- Two mutually exclusive Boolean predicates select disjoint sublists, so
their filtered lengths sum to at most the list length. -/
theorem length_filter_disjoint_le {α : Type} (l : List α) (f g : α → Bool)
    (h : ∀ x, ¬(f x = true ∧ g x = true)) :
    (l.filter f).length + (l.filter g).length ≤ l.length := by
  induction l with
  | nil => simp
  | cons a t ih =>
    by_cases hf : f a = true
    · have hg : ¬ g a = true := fun hg => h a ⟨hf, hg⟩
      simp only [List.filter_cons, hf, hg, Bool.false_eq_true, if_true,
        if_false, List.length_cons]
      omega
    · by_cases hg : g a = true
      · simp only [List.filter_cons, hf, hg, Bool.false_eq_true, if_true,
          if_false, List.length_cons]
        omega
      · simp only [List.filter_cons, hf, hg, Bool.false_eq_true, if_false,
          List.length_cons]
        omega

/-- C5 fails as stated: a MarketData whose latest ticker is the valid
all-zero candle derives current_price 0, but from_entity guards the field
with Python truthiness, so the DTO reads back as absent, not 0. -/
theorem C5_counterexample :
    Client.MarketData.current_price
      ⟨⟨"EURUSD", "Euro vs US Dollar", 5, 1/100000, "EUR", "USD", none,
          none, none, none⟩,
        some ⟨"EURUSD", .currentTime, 0, 0, 0, 0, 0⟩, none, none⟩ =
      some 0 ∧
    (Client.MarketDataResponse.from_entity
      ⟨⟨"EURUSD", "Euro vs US Dollar", 5, 1/100000, "EUR", "USD", none,
          none, none, none⟩,
        some ⟨"EURUSD", .currentTime, 0, 0, 0, 0, 0⟩, none,
        none⟩).current_price = none ∧
    some (0 : ℚ) ≠ (none : Option ℚ) ∧
    exceptOk (Client.Ticker.make "EURUSD" .currentTime 0 0 0 0 0) = true := by
  exact ⟨rfl, rfl, by simp, rfl⟩

/-- C5 amended: the aggregate derives current_price exactly as the claim
words it, and the DTO produced by from_entity carries that same derivation
except when it is 0, in which case the DTO field is absent (the source
tests the Decimal with Python truthiness before converting). -/
theorem C5_current_price_amended :
    ∀ md : Client.MarketData,
      Client.MarketData.current_price md =
        Client.MarketData.spec_current_price md ∧
      (Client.MarketDataResponse.from_entity md).current_price =
        (if Client.MarketData.spec_current_price md = some 0 then none
         else Client.MarketData.spec_current_price md) := by
  intro md
  have hcp : Client.MarketData.current_price md =
      Client.MarketData.spec_current_price md := by
    obtain ⟨sym, lt, ts, pc⟩ := md
    cases lt with
    | some t => rfl
    | none =>
      cases ts with
      | none => rfl
      | some l =>
        cases hl : l.getLast? with
        | none =>
          simp [Client.MarketData.current_price,
            Client.MarketData.spec_current_price, hl]
        | some t =>
          simp [Client.MarketData.current_price,
            Client.MarketData.spec_current_price, hl]
  refine ⟨hcp, ?_⟩
  have h2 : (Client.MarketDataResponse.from_entity md).current_price =
      (match Client.MarketData.current_price md with
       | some p => if p = 0 then none else some p
       | none => none) := rfl
  rw [h2, hcp]
  cases hsp : Client.MarketData.spec_current_price md with
  | none => simp
  | some p =>
    by_cases hp : p = 0
    · simp [hp]
    · simp [hp]

/-- C6: restricting to error-free entries, the computed sentiment is
bullish exactly when positives exceed 60 percent of the error-free count,
bearish exactly when negatives exceed 60 percent, neutral exactly
otherwise; with no error-free entries the sentiment is unknown with zero
counts and average 0. -/
theorem C6_market_sentiment :
    (∀ (n : ℕ) (pcts : List Client.SymbolPercentChange),
      pcts.filter (fun p => p.is_valid) = [] →
      Client.MarketAnalysisUseCase.analyze_symbols_statistics n pcts =
        ⟨n, 0, 0, 0, 0, "unknown"⟩) ∧
    (∀ (n : ℕ) (pcts : List Client.SymbolPercentChange),
      pcts.filter (fun p => p.is_valid) ≠ [] →
      (((Client.MarketAnalysisUseCase.analyze_symbols_statistics n
          pcts).market_sentiment = "bullish") ↔
        ((((pcts.filter (fun p => p.is_valid)).filter
            (fun p => p.is_positive)).length : ℚ) >
          ((pcts.filter (fun p => p.is_valid)).length : ℚ) * (6/10))) ∧
      (((Client.MarketAnalysisUseCase.analyze_symbols_statistics n
          pcts).market_sentiment = "bearish") ↔
        ((((pcts.filter (fun p => p.is_valid)).filter
            (fun p => p.is_negative)).length : ℚ) >
          ((pcts.filter (fun p => p.is_valid)).length : ℚ) * (6/10))) ∧
      (((Client.MarketAnalysisUseCase.analyze_symbols_statistics n
          pcts).market_sentiment = "neutral") ↔
        (¬((((pcts.filter (fun p => p.is_valid)).filter
            (fun p => p.is_positive)).length : ℚ) >
          ((pcts.filter (fun p => p.is_valid)).length : ℚ) * (6/10)) ∧
         ¬((((pcts.filter (fun p => p.is_valid)).filter
            (fun p => p.is_negative)).length : ℚ) >
          ((pcts.filter (fun p => p.is_valid)).length : ℚ) * (6/10))))) := by
  constructor
  · intro n pcts hempty
    simp [Client.MarketAnalysisUseCase.analyze_symbols_statistics, hempty]
  · intro n pcts hne
    have hemp : (pcts.filter (fun p => p.is_valid)).isEmpty = false := by
      cases h : (pcts.filter (fun p => p.is_valid)).isEmpty with
      | false => rfl
      | true => exact absurd (List.isEmpty_iff.mp h) hne
    have hmain : Client.MarketAnalysisUseCase.analyze_symbols_statistics
        n pcts =
        ⟨n, (pcts.filter (fun p => p.is_valid)).length,
          ((pcts.filter (fun p => p.is_valid)).filter
            (fun p => p.is_positive)).length,
          ((pcts.filter (fun p => p.is_valid)).filter
            (fun p => p.is_negative)).length,
          ((pcts.filter (fun p => p.is_valid)).map
            (fun p => p.pct_change)).sum /
            (((pcts.filter (fun p => p.is_valid)).length : ℕ) : ℚ),
          if ((((pcts.filter (fun p => p.is_valid)).filter
              (fun p => p.is_positive)).length : ℚ) >
              ((pcts.filter (fun p => p.is_valid)).length : ℚ) * (6/10))
          then "bullish"
          else if ((((pcts.filter (fun p => p.is_valid)).filter
              (fun p => p.is_negative)).length : ℚ) >
              ((pcts.filter (fun p => p.is_valid)).length : ℚ) * (6/10))
          then "bearish"
          else "neutral"⟩ := by
      simp only [Client.MarketAnalysisUseCase.analyze_symbols_statistics,
        hemp, Bool.not_false, if_true]
    rw [hmain]
    have hexcl : ∀ p : Client.SymbolPercentChange,
        ¬(p.is_positive = true ∧ p.is_negative = true) := by
      rintro p ⟨hp, hn⟩
      simp only [Client.SymbolPercentChange.is_positive,
        Client.SymbolPercentChange.is_negative, Bool.and_eq_true,
        decide_eq_true_eq] at hp hn
      linarith [hp.2, hn.2]
    have hsum := length_filter_disjoint_le
      (pcts.filter (fun p => p.is_valid)) (fun p => p.is_positive)
      (fun p => p.is_negative) hexcl
    have ht1 : 1 ≤ (pcts.filter (fun p => p.is_valid)).length :=
      List.length_pos.mpr hne
    have hc : ((((pcts.filter (fun p => p.is_valid)).filter
        (fun p => p.is_positive)).length : ℚ) +
        (((pcts.filter (fun p => p.is_valid)).filter
        (fun p => p.is_negative)).length : ℚ)) ≤
        ((pcts.filter (fun p => p.is_valid)).length : ℚ) := by
      exact_mod_cast hsum
    have hone : (1 : ℚ) ≤
        ((pcts.filter (fun p => p.is_valid)).length : ℚ) := by
      exact_mod_cast ht1
    refine ⟨?_, ?_, ?_⟩
    · by_cases hA : ((((pcts.filter (fun p => p.is_valid)).filter
          (fun p => p.is_positive)).length : ℚ) >
          ((pcts.filter (fun p => p.is_valid)).length : ℚ) * (6/10))
      · rw [if_pos hA]; exact iff_of_true rfl hA
      · rw [if_neg hA]
        by_cases hB : ((((pcts.filter (fun p => p.is_valid)).filter
            (fun p => p.is_negative)).length : ℚ) >
            ((pcts.filter (fun p => p.is_valid)).length : ℚ) * (6/10))
        · rw [if_pos hB]
          exact iff_of_false (by decide : ¬("bearish" = "bullish")) hA
        · rw [if_neg hB]
          exact iff_of_false (by decide : ¬("neutral" = "bullish")) hA
    · by_cases hA : ((((pcts.filter (fun p => p.is_valid)).filter
          (fun p => p.is_positive)).length : ℚ) >
          ((pcts.filter (fun p => p.is_valid)).length : ℚ) * (6/10))
      · rw [if_pos hA]
        have hnB : ¬ ((((pcts.filter (fun p => p.is_valid)).filter
            (fun p => p.is_negative)).length : ℚ) >
            ((pcts.filter (fun p => p.is_valid)).length : ℚ) * (6/10)) := by
          intro hB
          linarith
        exact iff_of_false (by decide : ¬("bullish" = "bearish")) hnB
      · rw [if_neg hA]
        by_cases hB : ((((pcts.filter (fun p => p.is_valid)).filter
            (fun p => p.is_negative)).length : ℚ) >
            ((pcts.filter (fun p => p.is_valid)).length : ℚ) * (6/10))
        · rw [if_pos hB]; exact iff_of_true rfl hB
        · rw [if_neg hB]
          exact iff_of_false (by decide : ¬("neutral" = "bearish")) hB
    · by_cases hA : ((((pcts.filter (fun p => p.is_valid)).filter
          (fun p => p.is_positive)).length : ℚ) >
          ((pcts.filter (fun p => p.is_valid)).length : ℚ) * (6/10))
      · rw [if_pos hA]
        exact iff_of_false (by decide : ¬("bullish" = "neutral"))
          (fun hcon => hcon.1 hA)
      · rw [if_neg hA]
        by_cases hB : ((((pcts.filter (fun p => p.is_valid)).filter
            (fun p => p.is_negative)).length : ℚ) >
            ((pcts.filter (fun p => p.is_valid)).length : ℚ) * (6/10))
        · rw [if_pos hB]
          exact iff_of_false (by decide : ¬("bearish" = "neutral"))
            (fun hcon => hcon.2 hB)
        · rw [if_neg hB]; exact iff_of_true rfl ⟨hA, hB⟩

/-- C6 at the spec examples: four of five positive classifies bullish,
and an empty result list classifies unknown. -/
theorem C6_market_sentiment_witness :
    (Client.MarketAnalysisUseCase.analyze_symbols_statistics 5
      [⟨"A", 1, none⟩, ⟨"B", 2, none⟩, ⟨"C", 3, none⟩, ⟨"D", -1, none⟩,
        ⟨"E", 1, none⟩]).market_sentiment = "bullish" ∧
    (Client.MarketAnalysisUseCase.analyze_symbols_statistics 0
      []).market_sentiment = "unknown" := by
  constructor
  · refine ((C6_market_sentiment.2 5 _ ?_).1).mpr ?_
    · simp [Client.SymbolPercentChange.is_valid]
    · norm_num [Client.SymbolPercentChange.is_valid,
        Client.SymbolPercentChange.is_positive, List.filter]
  · rw [C6_market_sentiment.1 0 [] rfl]

/-- C8: the layered percent-change request validator trims and uppercases
each entry and silently drops entries empty after trimming, so the
delivered list can be strictly shorter than the submitted list and can be
empty although the submitted list was not. -/
theorem C8_symbol_list_validator :
    (∀ v out, Server.validate_symbol_list v = .ok out →
      out.length ≤ v.length ∧
      ∀ s ∈ out, ∃ t ∈ v, pyStrip t ≠ "" ∧ s = pyUpper (pyStrip t)) ∧
    Server.validate_symbol_list ["  eurusd ", "   ", ""] =
      .ok ["EURUSD"] ∧
    Server.validate_symbol_list ["   "] = .ok [] ∧
    exceptOk (Server.validate_symbol_list []) = false := by
  refine ⟨?_, rfl, rfl, rfl⟩
  intro v out hv
  unfold Server.validate_symbol_list at hv
  cases hemp : v.isEmpty with
  | true => rw [hemp] at hv; simp at hv
  | false =>
    rw [hemp] at hv
    simp only [Bool.false_eq_true, if_false, Except.ok.injEq] at hv
    subst hv
    constructor
    · calc ((v.filter (fun s => !(pyStrip s == ""))).map
            (fun s => pyUpper (pyStrip s))).length
          = (v.filter (fun s => !(pyStrip s == ""))).length :=
            List.length_map _ _
        _ ≤ v.length := List.length_filter_le _ _
    · intro s hs
      obtain ⟨t, htmem, hts⟩ := List.mem_map.mp hs
      have htf := List.mem_filter.mp htmem
      refine ⟨t, htf.1, ?_, hts.symm⟩
      have := htf.2
      simpa using this

/-- C9: a ticker JSON element with every field missing maps to a valid
all-zero candle timestamped with the current time; an empty time string
behaves like a missing one. -/
theorem C9_ticker_json_defaults (symbol : String) (h : symbol ≠ "") :
    Client.TickerRepositoryAdapter.map_to_ticker symbol
      ⟨none, none, none, none, none, none⟩ =
      .ok ⟨symbol, .currentTime, 0, 0, 0, 0, 0⟩ ∧
    Client.TickerRepositoryAdapter.map_to_ticker symbol
      ⟨some "", none, none, none, none, none⟩ =
      .ok ⟨symbol, .currentTime, 0, 0, 0, 0, 0⟩ := by
  constructor <;>
  · unfold Client.TickerRepositoryAdapter.map_to_ticker Client.Ticker.make
    dsimp only
    rw [if_neg h]
    norm_num

/-- C9 at a concrete symbol. -/
theorem C9_ticker_json_defaults_witness :
    ("EURUSD" : String) ≠ "" ∧
    Client.TickerRepositoryAdapter.map_to_ticker "EURUSD"
      ⟨none, none, none, none, none, none⟩ =
      .ok ⟨"EURUSD", .currentTime, 0, 0, 0, 0, 0⟩ :=
  ⟨by decide, (C9_ticker_json_defaults "EURUSD" (by decide)).1⟩

end MT5
